import Mathlib

/-!
# Volkskette blockchain core — shallow embedding

A shallow embedding of the chain/state engine of the Volkskette node
(`src/blockchain.cpp`, `src/blockchain.hpp`, `src/node.cpp`), faithful to the
source:

* SHA-256 is implemented in full (FIPS 180-4) over the bytes of a string, so
  that every digest the program computes is computed here bit-identically.
  The program only ever hashes ASCII strings, where UTF-8 bytes and code
  points coincide; the byte packing below uses that identification.
* `nlohmann::json::dump()` serialization is reproduced exactly: object keys
  in sorted (std::map) order, no whitespace, `"..."` string quoting with the
  standard JSON escapes, integers in decimal, and doubles in the
  shortest-decimal form with a forced `.0` for integral values (all values
  the program serializes have terminating decimal expansions).
* C++ `double` amounts and balances are modelled as exact rationals `ℚ`;
  every amount in the scenarios below is integral, where double arithmetic
  is exact.  `uint64_t` nonces are `Nat` with the wrap-around of `+ 1` made
  explicit as `% 2^64` at the one comparison where the source increments.
* `std::map<std::string, …>` is an association list kept sorted by key
  (byte-lexicographic order, matching `std::string::operator<`), and
  `std::queue` (the mempool) is a FIFO list: `push` appends at the back,
  `pop` removes the front.
* The PoW search loop `_proof_of_work` (`while (!check_proof) nonce++`) is
  given explicit fuel; `some p` means the source loop terminates with `p`.
* The `Block` struct carries the `state_root` field that the current
  `blockchain.cpp` reads and writes; `Block::to_json()` serializes exactly
  the fields listed in the `blockchain.hpp` under `src/` (which does not
  include `state_root`).
* Logging, mutexes, the persister, and the contract subsystem have no effect
  on the modelled state and are omitted.
-/

namespace Volkskette

/-! ## SHA-256 over `Nat`-packed bytes -/

/-- 2^32, the modulus of 32-bit word arithmetic. -/
def M32 : Nat := 4294967296

/-- 2^512, the size of one SHA-256 message block (a literal, so kernel
reduction never meets a large exponentiation). -/
def M512 : Nat := 13407807929942597099574024998205846127479365820592393377723561443721764030073546976801874298166903427690031858186486050853753882811946569946433649006084096

/-- Right rotation of a 32-bit word (a `Nat < 2^32`). -/
def rotr32 (x n : Nat) : Nat := ((x >>> n) ||| (x <<< (32 - n))) % M32

/-- Bitwise complement of a 32-bit word. -/
def not32 (x : Nat) : Nat := x ^^^ 4294967295

def ch32 (x y z : Nat) : Nat := (x &&& y) ^^^ (not32 x &&& z)

def maj32 (x y z : Nat) : Nat := (x &&& y) ^^^ (x &&& z) ^^^ (y &&& z)

def bsig0 (x : Nat) : Nat := rotr32 x 2 ^^^ rotr32 x 13 ^^^ rotr32 x 22

def bsig1 (x : Nat) : Nat := rotr32 x 6 ^^^ rotr32 x 11 ^^^ rotr32 x 25

def ssig0 (x : Nat) : Nat := rotr32 x 7 ^^^ rotr32 x 18 ^^^ (x >>> 3)

def ssig1 (x : Nat) : Nat := rotr32 x 17 ^^^ rotr32 x 19 ^^^ (x >>> 10)

/-- The 64 SHA-256 round constants (FIPS 180-4 §4.2.2, in decimal). -/
def sha256K : List Nat :=
  [1116352408, 1899447441, 3049323471, 3921009573, 961987163, 1508970993,
   2453635748, 2870763221, 3624381080, 310598401, 607225278, 1426881987,
   1925078388, 2162078206, 2614888103, 3248222580, 3835390401, 4022224774,
   264347078, 604807628, 770255983, 1249150122, 1555081692, 1996064986,
   2554220882, 2821834349, 2952996808, 3210313671, 3336571891, 3584528711,
   113926993, 338241895, 666307205, 773529912, 1294757372, 1396182291,
   1695183700, 1986661051, 2177026350, 2456956037, 2730485921, 2820302411,
   3259730800, 3345764771, 3516065817, 3600352804, 4094571909, 275423344,
   430227734, 506948616, 659060556, 883997877, 958139571, 1322822218,
   1537002063, 1747873779, 1955562222, 2024104815, 2227730452, 2361852424,
   2428436474, 2756734187, 3204031479, 3329325298]

/-- A sliding window of the 16 most recent message-schedule words
`w[t-16] … w[t-1]`. -/
structure Sched where
  s0 : Nat
  s1 : Nat
  s2 : Nat
  s3 : Nat
  s4 : Nat
  s5 : Nat
  s6 : Nat
  s7 : Nat
  s8 : Nat
  s9 : Nat
  s10 : Nat
  s11 : Nat
  s12 : Nat
  s13 : Nat
  s14 : Nat
  s15 : Nat

/-- Shift the window one place, appending the new word. -/
def Sched.push (w : Sched) (v : Nat) : Sched :=
  { s0 := w.s1, s1 := w.s2, s2 := w.s3, s3 := w.s4, s4 := w.s5, s5 := w.s6,
    s6 := w.s7, s7 := w.s8, s8 := w.s9, s9 := w.s10, s10 := w.s11, s11 := w.s12,
    s12 := w.s13, s13 := w.s14, s14 := w.s15, s15 := v }

/-- The schedule recurrence `w[t] = σ₁(w[t-2]) + w[t-7] + σ₀(w[t-15]) + w[t-16]`. -/
def nextWord (w : Sched) : Nat :=
  (ssig1 w.s14 + w.s9 + ssig0 w.s1 + w.s0) % M32

/-- The `n` message-schedule words following window `w`. -/
def schedWords : Nat → Sched → List Nat
  | 0, _ => []
  | n + 1, w => let v := nextWord w; v :: schedWords n (w.push v)

/-- The working registers of the compression loop (also the 8-word chain
state). -/
structure Regs where
  a : Nat
  b : Nat
  c : Nat
  d : Nat
  e : Nat
  f : Nat
  g : Nat
  h : Nat

/-- One compression round with round constant `kc` and schedule word `wc`. -/
def shaRound (r : Regs) (kc : Nat) (wc : Nat) : Regs :=
  let t1 := (r.h + bsig1 r.e + ch32 r.e r.f r.g + kc + wc) % M32
  let t2 := (bsig0 r.a + maj32 r.a r.b r.c) % M32
  { a := (t1 + t2) % M32, b := r.a, c := r.b, d := r.c,
    e := (r.d + t1) % M32, f := r.e, g := r.f, h := r.g }

def shaRounds : List Nat → List Nat → Regs → Regs
  | kc :: ks, wc :: ws, r => shaRounds ks ws (shaRound r kc wc)
  | _, _, r => r

/-- Compress one 512-bit block (a `Nat < 2^512`, big-endian) into the state. -/
def compressBlock (st : Regs) (blk : Nat) : Regs :=
  let w : Sched :=
    { s0 := (blk >>> 480) % M32, s1 := (blk >>> 448) % M32, s2 := (blk >>> 416) % M32,
      s3 := (blk >>> 384) % M32, s4 := (blk >>> 352) % M32, s5 := (blk >>> 320) % M32,
      s6 := (blk >>> 288) % M32, s7 := (blk >>> 256) % M32, s8 := (blk >>> 224) % M32,
      s9 := (blk >>> 192) % M32, s10 := (blk >>> 160) % M32, s11 := (blk >>> 128) % M32,
      s12 := (blk >>> 96) % M32, s13 := (blk >>> 64) % M32, s14 := (blk >>> 32) % M32,
      s15 := blk % M32 }
  let ws := w.s0 :: w.s1 :: w.s2 :: w.s3 :: w.s4 :: w.s5 :: w.s6 :: w.s7 ::
            w.s8 :: w.s9 :: w.s10 :: w.s11 :: w.s12 :: w.s13 :: w.s14 :: w.s15 ::
            schedWords 48 w
  let r := shaRounds sha256K ws st
  { a := (st.a + r.a) % M32, b := (st.b + r.b) % M32, c := (st.c + r.c) % M32,
    d := (st.d + r.d) % M32, e := (st.e + r.e) % M32, f := (st.f + r.f) % M32,
    g := (st.g + r.g) % M32, h := (st.h + r.h) % M32 }

/-- Compress the `n` 512-bit blocks of the packed padded message, most
significant (first) block first. -/
def shaBlocks : Nat → Nat → Regs → Regs
  | 0, _, st => st
  | n + 1, padded, st => shaBlocks n padded (compressBlock st ((padded >>> (512 * n)) % M512))

/-- The SHA-256 initial state (FIPS 180-4 §5.3.3, in decimal). -/
def sha256IV : Regs :=
  { a := 1779033703, b := 3144134277, c := 1013904242, d := 2773480762,
    e := 1359893119, f := 2600822924, g := 528734635, h := 1541459225 }

/-- SHA-256 padding of a message packed big-endian into a `Nat` (`len`
bytes): append `0x80`, zeros to 56 mod 64, then the 64-bit bit length.
Returns the packed padded message and its block count. -/
def shaPad (msgN len : Nat) : Nat × Nat :=
  let zeros := (119 - len % 64) % 64
  let tailBytes := 9 + zeros
  let padded := (msgN <<< (8 * tailBytes)) ||| (0x80 <<< (8 * (8 + zeros))) ||| (8 * len)
  (padded, (len + tailBytes) / 64)

/-- The hex digit characters, lowercase; also used for decimal digits. -/
def hexDigit (n : Nat) : Char :=
  "0123456789abcdef".toList.getD n '0'

/-- A 32-bit word as 8 lowercase hex characters. -/
def wordHex (x : Nat) : List Char :=
  [hexDigit ((x >>> 28) % 16), hexDigit ((x >>> 24) % 16),
   hexDigit ((x >>> 20) % 16), hexDigit ((x >>> 16) % 16),
   hexDigit ((x >>> 12) % 16), hexDigit ((x >>> 8) % 16),
   hexDigit ((x >>> 4) % 16), hexDigit (x % 16)]

/-- SHA-256 of a `len`-byte message packed big-endian into a `Nat`, rendered
as the usual 64-character lowercase hex digest. -/
def sha256Packed (msgN len : Nat) : String :=
  let p := shaPad msgN len
  let st := shaBlocks p.2 p.1 sha256IV
  String.mk (wordHex st.a ++ wordHex st.b ++ wordHex st.c ++ wordHex st.d ++
             wordHex st.e ++ wordHex st.f ++ wordHex st.g ++ wordHex st.h)

/-- Pack a string's bytes big-endian into a `Nat` (ASCII, so code points are
bytes). -/
def strPack (s : String) : Nat :=
  s.data.foldl (fun acc c => (acc <<< 8) ||| (c.toNat &&& 255)) 0

/-- `Blockchain::sha256`: OpenSSL SHA-256 of a string, hex-rendered
lowercase. -/
def sha256 (s : String) : String := sha256Packed (strPack s) s.length

/-! ## `nlohmann::json::dump()` -/

/-- The JSON escape of one character, as `nlohmann::json` emits it
(`"`, `\`, the named control escapes, `\u00XX` for other control bytes;
everything else passes through). -/
def jsonEscapeChar (c : Char) : List Char :=
  if c = '"' then ['\\', '"']
  else if c = '\\' then ['\\', '\\']
  else if c = Char.ofNat 8 then ['\\', 'b']
  else if c = Char.ofNat 9 then ['\\', 't']
  else if c = Char.ofNat 10 then ['\\', 'n']
  else if c = Char.ofNat 12 then ['\\', 'f']
  else if c = Char.ofNat 13 then ['\\', 'r']
  else if c.toNat < 32 then
    ['\\', 'u', '0', '0', hexDigit (c.toNat / 16), hexDigit (c.toNat % 16)]
  else [c]

/-- A JSON string literal: quotes around the escaped characters. -/
def dumpStr (s : String) : String :=
  String.mk ('"' :: s.data.foldr (fun c acc => jsonEscapeChar c ++ acc) ['"'])

/-- A JSON boolean. -/
def dumpBool (b : Bool) : String := if b then "true" else "false"

/-- The fractional decimal digits of `r / den` (with fuel; every value the
program serializes has a terminating decimal expansion that fits the fuel). -/
def fracDigits : Nat → Nat → Nat → List Char
  | 0, _, _ => []
  | _, 0, _ => []
  | f + 1, r, den =>
    let r10 := r * 10
    hexDigit (r10 / den) :: fracDigits f (r10 % den) den

/-- A C++ `double` (modelled as `ℚ`) as `nlohmann::json` dumps it: the
shortest decimal form, with `.0` forced on integral values. -/
def dumpQ (q : ℚ) : String :=
  let sign := if q.num < 0 then "-" else ""
  let n := q.num.natAbs
  let ip := n / q.den
  let r := n % q.den
  if r = 0 then sign ++ toString ip ++ ".0"
  else sign ++ toString ip ++ "." ++ String.mk (fracDigits 20 r q.den)

/-- A JSON object from already-serialized key/value pairs, keys assumed to be
listed in sorted order (as `nlohmann::json`'s `std::map` storage yields). -/
def dumpObj (fields : List (String × String)) : String :=
  "\x7b" ++ String.intercalate ","
    (fields.map (fun f => dumpStr f.1 ++ ":" ++ f.2)) ++ "\x7d"

/-- A JSON array from already-serialized elements. -/
def dumpArr (elems : List String) : String :=
  "[" ++ String.intercalate "," elems ++ "]"

/-! ## Ledger types (`blockchain.hpp`) -/

/-- `struct Transaction` (`blockchain.hpp`).  `from` is a C++ identifier but
a Lean keyword, hence `from_`; doubles are `ℚ`; `uint64_t nonce` is `Nat`. -/
structure Transaction where
  from_ : String
  to_ : String
  amount : ℚ
  gas_price : ℚ
  timestamp : String
  signature : String
  public_key : String
  transaction_id : String
  nonce : Nat
  data : String
  contract_address : String
  is_contract_deployment : Bool
  contract_bytecode : String
  contract_name : String
  contract_language : String
deriving DecidableEq

/-- `Transaction::to_json().dump()`: all 15 fields, keys in sorted
(`std::map`) order. -/
def Transaction.dumpFull (t : Transaction) : String :=
  dumpObj
    [("amount", dumpQ t.amount),
     ("contract_address", dumpStr t.contract_address),
     ("contract_bytecode", dumpStr t.contract_bytecode),
     ("contract_language", dumpStr t.contract_language),
     ("contract_name", dumpStr t.contract_name),
     ("data", dumpStr t.data),
     ("from", dumpStr t.from_),
     ("gas_price", dumpQ t.gas_price),
     ("is_contract_deployment", dumpBool t.is_contract_deployment),
     ("nonce", toString t.nonce),
     ("public_key", dumpStr t.public_key),
     ("signature", dumpStr t.signature),
     ("timestamp", dumpStr t.timestamp),
     ("to", dumpStr t.to_),
     ("transaction_id", dumpStr t.transaction_id)]

/-- The json built inside `Transaction::calculate_hash`: only `from`, `to`,
`amount`, `gas_price`, `timestamp`, `public_key` (keys in sorted order). -/
def Transaction.hashDump (t : Transaction) : String :=
  dumpObj
    [("amount", dumpQ t.amount),
     ("from", dumpStr t.from_),
     ("gas_price", dumpQ t.gas_price),
     ("public_key", dumpStr t.public_key),
     ("timestamp", dumpStr t.timestamp),
     ("to", dumpStr t.to_)]

/-- `Transaction::calculate_hash`: SHA-256 of the six-field json dump. -/
def Transaction.calculate_hash (t : Transaction) : String :=
  sha256 t.hashDump

/-- `struct Block` (`blockchain.hpp`), plus the `state_root` field that the
current `blockchain.cpp` reads and writes (the header under `src/` omits it;
see §9 of the spec).  `int index` is `Nat` (always ≥ 1 in the program);
`long long proof` is `Int`. -/
structure Block where
  index : Nat
  timestamp : String
  transactions : List Transaction
  merkle_root : String
  state_root : String
  proof : Int
  previous_hash : String
deriving DecidableEq

/-- A placeholder block for out-of-range vector indexing (never reached on
the chains the theorems quantify over). -/
def defaultBlock : Block :=
  { index := 0, timestamp := "", transactions := [], merkle_root := "",
    state_root := "", proof := 0, previous_hash := "" }

/-- `Block::to_json().dump()`: exactly the fields of the `src/` header
(`index`, `timestamp`, `transactions`, `merkle_root`, `proof`,
`previous_hash`), keys in sorted order — `state_root` is not serialized. -/
def Block.dump (b : Block) : String :=
  dumpObj
    [("index", toString b.index),
     ("merkle_root", dumpStr b.merkle_root),
     ("previous_hash", dumpStr b.previous_hash),
     ("proof", toString b.proof),
     ("timestamp", dumpStr b.timestamp),
     ("transactions", dumpArr (b.transactions.map Transaction.dumpFull))]

/-! ## `std::map` as a sorted association list -/

/-- `std::map::find`: the value at `k`, if present. -/
def mapFind {α : Type} : List (String × α) → String → Option α
  | [], _ => none
  | (a, b) :: t, k => if k = a then some b else mapFind t k

/-- Lookup with a default (the value `operator[]` default-inserts). -/
def mapGetD {α : Type} (m : List (String × α)) (k : String) (d : α) : α :=
  (mapFind m k).getD d

/-- `m[k] = v`: insert or replace, keeping keys sorted — the `std::map`
representation invariant. -/
def mapSet {α : Type} : List (String × α) → String → α → List (String × α)
  | [], k, v => [(k, v)]
  | (a, b) :: t, k, v =>
    if k < a then (k, v) :: (a, b) :: t
    else if k = a then (k, v) :: t
    else (a, b) :: mapSet t k v

/-- `std::map::count(k) ≠ 0`. -/
def mapContains {α : Type} (m : List (String × α)) (k : String) : Bool :=
  (mapFind m k).isSome

/-- Keys strictly increase — the invariant `std::map` maintains. -/
def sortedKeys {α : Type} (m : List (String × α)) : Prop :=
  List.Pairwise (fun x y => x.1 < y.1) m

/-! ## Blockchain state and operations (`blockchain.cpp`) -/

/-- The members of `class Blockchain` that the modelled operations touch:
the chain, the account tables, the mempool (FIFO front-first), and the
mutable difficulty. -/
structure BCState where
  chain : List Block
  account_balances : List (String × ℚ)
  account_nonces : List (String × Nat)
  mempool : List Transaction
  difficulty : Nat
deriving DecidableEq

/-- `Blockchain::_calculate_state_root`: the json object mapping each
address (in sorted order — the `std::map` iteration order, re-sorted by the
source) to `{balance, nonce}`, hashed. -/
def _calculate_state_root (balances : List (String × ℚ)) (nonces : List (String × Nat)) : String :=
  sha256 (dumpObj (balances.map (fun ab =>
    (ab.1, dumpObj [("balance", dumpQ ab.2), ("nonce", toString (mapGetD nonces ab.1 0))]))))

/-- One pairing level of the merkle loop: hash `h[i] ++ h[i+1]`, duplicating
the last hash on odd arity. -/
def merklePair : List String → List String
  | [] => []
  | [h] => [sha256 (h ++ h)]
  | h1 :: h2 :: t => sha256 (h1 ++ h2) :: merklePair t

/-- The `while (hashes.size() > 1)` loop, with fuel (each level at least
halves a list of length ≥ 2, so `fuel = length` always suffices). -/
def merkleLevels : Nat → List String → String
  | _, [] => ""
  | _, [h] => h
  | 0, h :: _ => h
  | n + 1, hs => merkleLevels n (merklePair hs)

/-- `Blockchain::_calculate_merkle_root`: `sha256("")` when empty, else the
binary hash tree over `sha256(tx.to_json().dump())` leaves. -/
def _calculate_merkle_root (txs : List Transaction) : String :=
  match txs with
  | [] => sha256 ""
  | _ => merkleLevels txs.length (txs.map (fun t => sha256 t.dumpFull))

/-- `Blockchain::_calculate_difficulty`: 4 below 10 blocks, then
`4 + size/100`. -/
def _calculate_difficulty (chain : List Block) : Nat :=
  if chain.length < 10 then 4 else 4 + chain.length / 100

/-- `Blockchain::_create_block`: note the state root is computed from the
account table as it is *before* the block's transactions execute (the
source comment: "Calculate state root BEFORE transactions execute"). -/
def _create_block (s : BCState) (transactions : List Transaction) (proof : Int)
    (previous_hash : String) (index : Nat) (now : String) : Block :=
  { index := index, timestamp := now, transactions := transactions,
    merkle_root := _calculate_merkle_root transactions,
    state_root := _calculate_state_root s.account_balances s.account_nonces,
    proof := proof, previous_hash := previous_hash }

/-- `Blockchain::_verify_ecdsa_signature`: the id must recompute and the
signature must be non-empty (no actual ECDSA in the source). -/
def _verify_ecdsa_signature (t : Transaction) : Bool :=
  if t.transaction_id ≠ t.calculate_hash then false
  else if t.signature = "" then false
  else true

/-- 2^64, the modulus of `uint64_t` arithmetic. -/
def M64 : Nat := 18446744073709551616

/-- `Blockchain::_check_replay_protection`: nonce 0 for an account with no
recorded nonce, else exactly the recorded nonce plus one (a `uint64_t`
increment, hence the explicit wrap). -/
def _check_replay_protection (s : BCState) (t : Transaction) : Bool :=
  match mapFind s.account_nonces t.from_ with
  | none => t.nonce = 0
  | some n => t.nonce = (n + 1) % M64

/-- The nonce `add_transaction` will accept from address `a`. -/
def expected_nonce (s : BCState) (a : String) : Nat :=
  match mapFind s.account_nonces a with
  | none => 0
  | some n => (n + 1) % M64

/-- `Blockchain::_has_sufficient_balance`: false for unknown accounts. -/
def _has_sufficient_balance (s : BCState) (address : String) (amount : ℚ) : Bool :=
  match mapFind s.account_balances address with
  | none => false
  | some b => amount ≤ b

/-- The classified rejections of `_validate_transaction` (each a
`BlockchainException` in the source). -/
inductive TxError where
  | invalidSignature
  | badNonce
  | insufficientBalance
  | invalidAmounts
  | invalidAddresses
  | selfTransfer
  | idMismatch
deriving DecidableEq

/-- `Blockchain::_validate_transaction`: the seven checks, in source order;
`none` means the transaction is accepted. -/
def _validate_transaction (s : BCState) (t : Transaction) : Option TxError :=
  if _verify_ecdsa_signature t = false then some .invalidSignature
  else if _check_replay_protection s t = false then some .badNonce
  else if _has_sufficient_balance s t.from_ (t.amount + t.gas_price) = false then
    some .insufficientBalance
  else if t.amount ≤ 0 ∨ t.gas_price < 0 then some .invalidAmounts
  else if t.from_ = "" ∨ t.to_ = "" then some .invalidAddresses
  else if t.from_ = t.to_ then some .selfTransfer
  else if t.transaction_id ≠ t.calculate_hash then some .idMismatch
  else none

/-- `Blockchain::_update_balances`: for each transaction in order, debit
`amount + gas_price` from the sender, credit `amount` to the receiver
(`operator[]` default-inserts 0), and record the sender's nonce. -/
def _update_balances (txs : List Transaction) (balances : List (String × ℚ))
    (nonces : List (String × Nat)) : List (String × ℚ) × List (String × Nat) :=
  match txs with
  | [] => (balances, nonces)
  | t :: rest =>
    let b1 := mapSet balances t.from_ (mapGetD balances t.from_ 0 - (t.amount + t.gas_price))
    let b2 := mapSet b1 t.to_ (mapGetD b1 t.to_ 0 + t.amount)
    _update_balances rest b2 (mapSet nonces t.from_ t.nonce)

/-- `Blockchain::create_account`: throws when the account exists, else sets
the balance.  The first component is the thrown message, if any. -/
def create_account (s : BCState) (address : String) (initial_balance : ℚ) :
    Option String × BCState :=
  if mapContains s.account_balances address then (some "Account already exists", s)
  else (none, { s with account_balances := mapSet s.account_balances address initial_balance })

/-- `Blockchain::get_balance`: a `const` query via `std::map::find`; returns
0.0 for unknown addresses.  Stated in state-passing form so that leaving the
account table untouched is part of the statement. -/
def get_balance (s : BCState) (address : String) : ℚ × BCState :=
  match mapFind s.account_balances address with
  | none => (0, s)
  | some b => (b, s)

/-- `Blockchain::get_account_nonce`: a `const` query via `std::map::find`;
returns 0 for unknown addresses. -/
def get_account_nonce (s : BCState) (address : String) : Nat × BCState :=
  match mapFind s.account_nonces address with
  | none => (0, s)
  | some n => (n, s)

/-- `MAX_MEMPOOL_SIZE` (`blockchain.hpp`). -/
def MAX_MEMPOOL_SIZE : Nat := 10000

/-- `MEMPOOL_EVICT_SIZE` (`blockchain.hpp`; the spec's
`MEMPOOL_EVICT_BATCH`). -/
def MEMPOOL_EVICT_SIZE : Nat := 1000

/-- The eviction loop `for (i < MEMPOOL_EVICT_SIZE && !mempool.empty())
mempool.pop()`: drop up to `n` entries from the front. -/
def popN {α : Type} : Nat → List α → List α
  | 0, l => l
  | _ + 1, [] => []
  | n + 1, _ :: t => popN n t

/-- `Blockchain::add_transaction`: validate (an exception leaves the state
untouched), evict the oldest `MEMPOOL_EVICT_SIZE` entries when the mempool
is at `MAX_MEMPOOL_SIZE` or beyond, then push at the back. -/
def add_transaction (s : BCState) (t : Transaction) : Option TxError × BCState :=
  match _validate_transaction s t with
  | some e => (some e, s)
  | none =>
    let pool := if s.mempool.length ≥ MAX_MEMPOOL_SIZE
                then popN MEMPOOL_EVICT_SIZE s.mempool else s.mempool
    (none, { s with mempool := pool ++ [t] })

/-- `Blockchain::_to_digest`: `str((p·p) − (pp·pp) + index) ++ data`, in
`long long` arithmetic (far from overflow at every value the program
reaches). -/
def _to_digest (new_proof previous_proof : Int) (index : Nat) (data : String) : String :=
  toString (new_proof * new_proof - previous_proof * previous_proof + (index : Int)) ++ data

/-- One PoW test: `diff` leading `'0'` hex characters. -/
def powOk (p pp : Int) (index : Nat) (data : String) (diff : Nat) : Bool :=
  (sha256 (_to_digest p pp index data)).take diff = String.mk (List.replicate diff '0')

def _proof_of_work_aux (pp : Int) (index : Nat) (data : String) (diff : Nat) :
    Nat → Int → Option Int
  | 0, _ => none
  | fuel + 1, p => if powOk p pp index data diff then some p else
      _proof_of_work_aux pp index data diff fuel (p + 1)

/-- `Blockchain::_proof_of_work`: the unbounded `while (!check_proof)
nonce++` search, with fuel; `some p` states that the source loop terminates
and returns `p` (necessarily the least satisfying nonce). -/
def _proof_of_work (fuel : Nat) (pp : Int) (index : Nat) (data : String) (diff : Nat) : Option Int :=
  _proof_of_work_aux pp index data diff fuel 0

/-- `Blockchain::_hash`: SHA-256 of the block's json dump. -/
def _hash (b : Block) : String := sha256 b.dump

/-- The `tx_data` accumulation of `mine_block` and `is_chain_valid`:
concatenated full dumps. -/
def txsData (txs : List Transaction) : String :=
  txs.foldl (fun acc t => acc ++ t.dumpFull) ""

/-- `Blockchain::mine_block(max_transactions = 10)`: drain up to `maxTx`
oldest mempool entries, run PoW on their concatenated dumps, build the block
(state root *before* applying), apply the drained transactions, append.
`now` is the wall-clock timestamp string; `none` covers the empty chain
(a thrown exception) and an unfinished PoW search. -/
def mine_block (fuel : Nat) (maxTx : Nat) (now : String) (s : BCState) :
    Option (Block × BCState) :=
  match s.chain.getLast? with
  | none => none
  | some previous_block =>
    let index := s.chain.length + 1
    let drained := s.mempool.take maxTx
    let rest := s.mempool.drop maxTx
    let diff := _calculate_difficulty s.chain
    let tx_data := txsData drained
    match _proof_of_work fuel previous_block.proof index tx_data diff with
    | none => none
    | some proof =>
      let block := _create_block s drained proof (_hash previous_block) index now
      let bn := _update_balances drained s.account_balances s.account_nonces
      some (block, { chain := s.chain ++ [block], account_balances := bn.1,
                     account_nonces := bn.2, mempool := rest, difficulty := diff })

/-- The previous proof `_verify_block_difficulty` reads:
`chain[block.index - 1].proof` when `index > 1` (for a block at its own
position in the chain this is the block itself, not its parent), else 1. -/
def _verify_prev_proof (chain : List Block) (b : Block) : Int :=
  if b.index > 1 then (chain.getD (b.index - 1) defaultBlock).proof else 1

/-- The digest input `_verify_block_difficulty` hashes: built from the
block's own proof, `chain[block.index - 1].proof`, and the block's
`merkle_root` as the data. -/
def _verify_pow_digest (chain : List Block) (b : Block) : String :=
  _to_digest b.proof (_verify_prev_proof chain b) b.index b.merkle_root

/-- `Blockchain::_verify_block_difficulty`: both the retarget branch and the
regular branch of the source perform the identical check — 4 leading zeros
of the hash of `_verify_pow_digest` — so the model has one branch. -/
def _verify_block_difficulty (chain : List Block) (b : Block) : Bool :=
  (sha256 (_verify_pow_digest chain b)).take 4 = "0000"

/-- The genesis chain `Blockchain::Blockchain()` builds: one block with no
transactions, proof 1, previous hash `"0"`, index 1, at wall-clock time
`gts`; no accounts, an empty mempool, difficulty 4. -/
def initial_chain (gts : String) : BCState :=
  let empty : BCState :=
    { chain := [], account_balances := [], account_nonces := [], mempool := [], difficulty := 4 }
  { empty with chain := [_create_block empty [] 1 "0" 1 gts] }

/-- Sum of all account balances. -/
def totalBalance (m : List (String × ℚ)) : ℚ :=
  m.foldr (fun ab acc => ab.2 + acc) 0

/-! ## Node operations (`node.cpp`) -/

/-- `BlockchainNode::handle_chain_sync`: reads the local chain and, when the
incoming chain is strictly longer, prints "Accepting longer chain" — but
neither branch modifies the local chain (the replacement is left as a
comment in the source: "In production, verify the entire chain before
replacing"). -/
def handle_chain_sync (s : BCState) (incoming : List Block) : BCState :=
  if incoming.length > s.chain.length then s else s

/-- `BlockchainNode::is_chain_longer`. -/
def is_chain_longer (s : BCState) (other_chain : List Block) : Bool :=
  other_chain.length > s.chain.length

/-! ## A concrete run

The run `create_account("A", 100); add_transaction(tx1); add_transaction(tx2);
mine_block()` with two transactions that both spend 60 from `A` under nonce 0.
Timestamps are free inputs (the code never validates them on this path); the
digest literals below are the values the code computes, checked bit-for-bit
by kernel evaluation in the lemmas that follow. -/

/-- First transaction of the run: `A → B`, amount 60, gas 0, nonce 0. -/
def tx1 : Transaction :=
  { from_ := "A", to_ := "B", amount := 60, gas_price := 0, timestamp := "t3",
    signature := "s", public_key := "p",
    transaction_id := "ea138f694cd23a2688a3834272eda37e8db6a18ba97e0329dbbb1d73042b3877",
    nonce := 0, data := "", contract_address := "", is_contract_deployment := false,
    contract_bytecode := "", contract_name := "", contract_language := "" }

/-- Second transaction of the run: `A → C`, amount 60, gas 0, and the *same*
nonce 0 (admissible again because admission never advances the committed
nonce). -/
def tx2 : Transaction :=
  { tx1 with
    to_ := "C", timestamp := "u21",
    transaction_id := "da9b9220055243c8fdbe32f2fcbac91b4c9165ed8a22dd5d58e5e94da455e8aa" }

/-- `tx1` with only the nonce changed (for the transaction-id claims). -/
def tx5 : Transaction := { tx1 with nonce := 7 }

/-- The genesis block the `Blockchain()` constructor builds at wall-clock
time `"g"`: `merkle_root = sha256("")`, `state_root = sha256("{}")`. -/
def genesisB : Block :=
  { index := 1, timestamp := "g", transactions := [],
    merkle_root := "e3b0c44298fc1c149afbf4c8996fb92427ae41e4649b934ca495991b7852b855",
    state_root := "44136fa355b3678a1146ad16f7e8649e94fb4fc21fe77e8310c060f61caaff8a",
    proof := 1, previous_hash := "0" }

/-- The freshly constructed chain. -/
def sInit : BCState :=
  { chain := [genesisB], account_balances := [], account_nonces := [],
    mempool := [], difficulty := 4 }

/-- After `create_account("A", 100)`. -/
def s0 : BCState := { sInit with account_balances := [("A", 100)] }

/-- After admitting `tx1`. -/
def s1 : BCState := { s0 with mempool := [tx1] }

/-- After also admitting `tx2` (two pending transactions from `A`). -/
def s2 : BCState := { s0 with mempool := [tx1, tx2] }

/-- The block `mine_block` emits from `s2` at wall-clock time `"m"`: proof 4
is the least PoW nonce for this transaction data, the merkle root covers
`[tx1, tx2]`, the previous hash is the genesis digest, and the `state_root`
is the digest of the *pre-block* table `{A: 100}`. -/
def minedB : Block :=
  { index := 2, timestamp := "m", transactions := [tx1, tx2],
    merkle_root := "53e7e078591fa2253ca649c00919ff74cdda73b0d598a18e6bd69f130fc821fe",
    state_root := "1411b5128efb1486f2eddb89bf057c5dfff2204f1a31a8863042bd1ec237ded7",
    proof := 4,
    previous_hash := "34c76abad331d2c7b6e003b78d13121fb0574c367256b89aa4660c63b7048722" }

/-- The state after mining: `A` is overdrawn to −20. -/
def s3 : BCState :=
  { chain := [genesisB, minedB],
    account_balances := [("A", -20), ("B", 60), ("C", 60)],
    account_nonces := [("A", 0)], mempool := [], difficulty := 4 }

/-- The digest of the account table `s3` actually holds after the block
(`{A: −20, B: 60, C: 60}` with `A`'s nonce 0) — computed by the same
`_calculate_state_root`, distinct from the `state_root` the block carries. -/
def postStateRoot : String :=
  "436f907a0fb6a1dd59302f5d7b287c12721059330e4737b5c927ca705fbf7b53"

/-- A transfer `X → Y` of 100 at gas price 1 (only the fields
`_update_balances` reads matter to the balance-update claims). -/
def txW : Transaction :=
  { from_ := "X", to_ := "Y", amount := 100, gas_price := 1, timestamp := "w",
    signature := "s", public_key := "p", transaction_id := "",
    nonce := 0, data := "", contract_address := "", is_contract_deployment := false,
    contract_bytecode := "", contract_name := "", contract_language := "" }

/-- A valid transfer `D → E` of 5 at gas 0, nonce 0, for the mempool-bound
claims. -/
def tx9 : Transaction :=
  { from_ := "D", to_ := "E", amount := 5, gas_price := 0, timestamp := "z1",
    signature := "s", public_key := "p",
    transaction_id := "45dfed1968bd68d1be74179ca4d5c634fc07dcb3c2b331384543048c86d79125",
    nonce := 0, data := "", contract_address := "", is_contract_deployment := false,
    contract_bytecode := "", contract_name := "", contract_language := "" }

/-- A state whose mempool holds exactly `MAX_MEMPOOL_SIZE` pending entries
and whose account table lets `tx9` validate. -/
def c9S : BCState :=
  { sInit with
    account_balances := [("D", 100)],
    mempool := List.replicate MAX_MEMPOOL_SIZE tx1 }

end Volkskette

namespace Volkskette

/-! ## Kernel-checked evaluations of the run -/

/-- The constructor's genesis block, evaluated. -/
theorem initial_chain_eval : initial_chain "g" = sInit := by decide!

/-- `create_account("A", 100)` succeeds. -/
theorem create_account_eval : create_account sInit "A" 100 = (none, s0) := by decide!

/-- Admitting `tx1` succeeds and only appends to the mempool. -/
theorem add_tx1_eval : add_transaction s0 tx1 = (none, s1) := by decide!

/-- Admitting `tx2` — same sender, same nonce 0, while `tx1` is still
pending — also succeeds. -/
theorem add_tx2_eval : add_transaction s1 tx2 = (none, s2) := by decide!

/-- Mining from `s2` terminates with proof 4 and produces `minedB` and the
overdrawn state `s3`. -/
theorem mine_eval : mine_block 6 10 "m" s2 = some (minedB, s3) := by decide!

/-- The post-block state root recomputes to `postStateRoot`. -/
theorem post_state_root_eval :
    _calculate_state_root s3.account_balances s3.account_nonces = postStateRoot := by decide!

/-- `tx1` passes the signature check. -/
theorem sig_eval : _verify_ecdsa_signature tx1 = true := by decide!

/-- `tx9` validates against `c9S` (validation never reads the mempool). -/
theorem c9_valid_eval : _validate_transaction c9S tx9 = none := by decide!

/-! ## Association-list lemmas -/

theorem mapGetD_nil {α : Type} (k : String) (d : α) :
    mapGetD ([] : List (String × α)) k d = d := rfl

theorem mapGetD_cons {α : Type} (p : String × α) (t : List (String × α)) (k : String) (d : α) :
    mapGetD (p :: t) k d = if k = p.1 then p.2 else mapGetD t k d := by
  by_cases h : k = p.1 <;> simp [mapGetD, mapFind, h]

theorem totalBalance_nil : totalBalance [] = 0 := rfl

theorem totalBalance_cons (p : String × ℚ) (t : List (String × ℚ)) :
    totalBalance (p :: t) = p.2 + totalBalance t := rfl

theorem mapGetD_mapSet_self {α : Type} (m : List (String × α)) (k : String) (v d : α) :
    mapGetD (mapSet m k v) k d = v := by
  induction m with
  | nil => simp [mapSet, mapGetD_cons]
  | cons p t ih =>
    by_cases h1 : k < p.1
    · simp [mapSet, h1, mapGetD_cons]
    · by_cases h2 : k = p.1
      · simp [mapSet, h1, h2, mapGetD_cons]
      · simp [mapSet, h1, h2, mapGetD_cons, ih]

theorem mapGetD_mapSet_ne {α : Type} (m : List (String × α)) (k k' : String) (v d : α)
    (h : k' ≠ k) :
    mapGetD (mapSet m k v) k' d = mapGetD m k' d := by
  induction m with
  | nil => simp [mapSet, mapGetD_nil, mapGetD_cons, h]
  | cons p t ih =>
    by_cases h1 : k < p.1
    · simp [mapSet, h1, mapGetD_cons, h]
    · by_cases h2 : k = p.1
      · subst h2; simp [mapSet, h1, mapGetD_cons, h]
      · by_cases h3 : k' = p.1 <;> simp [mapSet, h1, h2, mapGetD_cons, h3, ih]

theorem mapFind_eq_none {α : Type} (m : List (String × α)) (k : String)
    (h : ∀ p ∈ m, k ≠ p.1) : mapFind m k = none := by
  induction m with
  | nil => rfl
  | cons p t ih =>
    simp only [mapFind, if_neg (h p (List.mem_cons_self p t))]
    exact ih (fun q hq => h q (List.mem_cons_of_mem p hq))

theorem mem_mapSet {α : Type} (m : List (String × α)) (k : String) (v : α)
    (q : String × α) (hq : q ∈ mapSet m k v) : q.1 = k ∨ q ∈ m := by
  induction m with
  | nil =>
    simp only [mapSet, List.mem_singleton] at hq
    exact Or.inl (by rw [hq])
  | cons p t ih =>
    rw [mapSet] at hq
    by_cases h1 : k < p.1
    · rw [if_pos h1] at hq
      rcases List.mem_cons.mp hq with e | hq2
      · exact Or.inl (by rw [e])
      · exact Or.inr hq2
    · by_cases h2 : k = p.1
      · rw [if_neg h1, if_pos h2] at hq
        rcases List.mem_cons.mp hq with e | hq2
        · exact Or.inl (by rw [e])
        · exact Or.inr (List.mem_cons_of_mem p hq2)
      · rw [if_neg h1, if_neg h2] at hq
        rcases List.mem_cons.mp hq with e | hq2
        · exact Or.inr (List.mem_cons.mpr (Or.inl e))
        · rcases ih hq2 with e | hq3
          · exact Or.inl e
          · exact Or.inr (List.mem_cons_of_mem p hq3)

theorem sortedKeys_mapSet {α : Type} (m : List (String × α)) (k : String) (v : α)
    (hs : sortedKeys m) : sortedKeys (mapSet m k v) := by
  induction m with
  | nil => simp [mapSet, sortedKeys]
  | cons p t ih =>
    rw [sortedKeys, List.pairwise_cons] at hs
    by_cases h1 : k < p.1
    · rw [mapSet]
      simp only [if_pos h1]
      rw [sortedKeys, List.pairwise_cons]
      constructor
      · intro q hq
        rcases List.mem_cons.mp hq with hqe | hqt
        · rw [hqe]; exact h1
        · exact lt_trans h1 (hs.1 q hqt)
      · rw [sortedKeys] at *
        exact List.Pairwise.cons hs.1 hs.2
    · by_cases h2 : k = p.1
      · rw [mapSet]
        simp only [if_neg h1, if_pos h2]
        rw [sortedKeys, List.pairwise_cons]
        exact ⟨fun q hq => h2 ▸ hs.1 q hq, hs.2⟩
      · rw [mapSet]
        simp only [if_neg h1, if_neg h2]
        rw [sortedKeys, List.pairwise_cons]
        have hk : p.1 < k := lt_of_le_of_ne (not_lt.mp h1) (fun e => h2 e.symm)
        constructor
        · intro q hq
          rcases mem_mapSet t k v q hq with e | hqt
          · rw [e]; exact hk
          · exact hs.1 q hqt
        · exact ih hs.2

theorem totalBalance_mapSet (m : List (String × ℚ)) (k : String) (v : ℚ)
    (hs : sortedKeys m) :
    totalBalance (mapSet m k v) = totalBalance m + v - mapGetD m k 0 := by
  induction m with
  | nil => simp [mapSet, totalBalance_cons, totalBalance_nil, mapGetD_nil]
  | cons p t ih =>
    rw [sortedKeys, List.pairwise_cons] at hs
    by_cases h1 : k < p.1
    · have hnone : mapFind ((p :: t) : List (String × ℚ)) k = none := by
        apply mapFind_eq_none
        intro q hq
        rcases List.mem_cons.mp hq with e | hqt
        · rw [e]; exact ne_of_lt h1
        · exact ne_of_lt (lt_trans h1 (hs.1 q hqt))
      rw [mapSet, if_pos h1, totalBalance_cons, totalBalance_cons, mapGetD, hnone]
      simp
      ring
    · by_cases h2 : k = p.1
      · rw [mapSet, if_neg h1, if_pos h2, totalBalance_cons, totalBalance_cons,
          mapGetD_cons, if_pos h2]
        ring
      · rw [mapSet, if_neg h1, if_neg h2, totalBalance_cons, totalBalance_cons,
          mapGetD_cons, if_neg h2, ih hs.2]
        ring

/-! ## Claims -/

/-- C1: the claimed invariant "every account's balance is non-negative in
every reachable state" is violated by the code.  In the concrete run
`create_account("A", 100)`, `add_transaction(tx1)`, `add_transaction(tx2)`,
`mine_block()` — where both transactions spend 60 + 0 gas from `A` under the
same (accepted) nonce 0 — every call succeeds, yet after the mined block is
applied `A`'s balance is −20 < 0: admission checks the committed balance
only, and `_update_balances` applies the drained transactions without
re-validation. -/
theorem c1_negative_balance_reachable :
    create_account (initial_chain "g") "A" 100 = (none, s0)
    ∧ add_transaction s0 tx1 = (none, s1)
    ∧ add_transaction s1 tx2 = (none, s2)
    ∧ mine_block 6 10 "m" s2 = some (minedB, s3)
    ∧ mapGetD s3.account_balances "A" 0 = -20
    ∧ mapGetD s3.account_balances "A" 0 < 0 := by
  refine ⟨?_, add_tx1_eval, add_tx2_eval, mine_eval, by decide, by decide⟩
  rw [initial_chain_eval]
  exact create_account_eval

/-- C2 (counterexample): the claim "every block returned by `mine_block` has
`state_root` equal to the root recomputed from the account table *after*
applying the block's transactions" is false at the concrete mined block
`minedB`: its `state_root` is the digest of the pre-block table `{A: 100}`,
not of the post-block table `{A: −20, B: 60, C: 60}`. -/
theorem c2_counterexample :
    mine_block 6 10 "m" s2 = some (minedB, s3)
    ∧ minedB.state_root ≠ _calculate_state_root s3.account_balances s3.account_nonces := by
  refine ⟨mine_eval, ?_⟩
  rw [post_state_root_eval]
  decide

/-- C2 (amended): every block returned by `mine_block` carries the state
root of the account table as it was *before* the block's transactions were
applied (`_create_block` computes it before `_update_balances` runs). -/
theorem c2_state_root_is_pre_state_root (fuel maxTx : Nat) (now : String) (s : BCState)
    (b : Block) (s' : BCState) (h : mine_block fuel maxTx now s = some (b, s')) :
    b.state_root = _calculate_state_root s.account_balances s.account_nonces := by
  unfold mine_block at h
  cases hl : s.chain.getLast? with
  | none => rw [hl] at h; exact absurd h (by simp)
  | some pb =>
    rw [hl] at h
    simp only at h
    cases hp : _proof_of_work fuel pb.proof (s.chain.length + 1)
        (txsData (s.mempool.take maxTx)) (_calculate_difficulty s.chain) with
    | none => rw [hp] at h; exact absurd h (by simp)
    | some p =>
      rw [hp] at h
      simp only [Option.some.injEq, Prod.mk.injEq] at h
      rw [← h.1]
      rfl

/-- C2 (witness): the amended statement at the concrete mined block. -/
theorem c2_state_root_is_pre_state_root_witness :
    minedB.state_root = _calculate_state_root s2.account_balances s2.account_nonces :=
  c2_state_root_is_pre_state_root 6 10 "m" s2 minedB s3 mine_eval

/-- C3: block validation is not the inverse of mining.  For the concretely
mined chain `[genesisB, minedB]`, the PoW check of `_verify_block_difficulty`
rejects the block the miner just produced: the validator hashes a digest
built from the block's `merkle_root` (the miner used the concatenated
transaction dumps) and from `chain[block.index - 1].proof`, which at the
block's own position is the block's own proof (so the proof cancels out of
`p·p − p·p + index`), not the parent's. -/
theorem c3_validator_pow_not_inverse_of_miner :
    mine_block 6 10 "m" s2 = some (minedB, s3)
    ∧ _verify_block_difficulty s3.chain minedB = false
    ∧ _verify_prev_proof s3.chain minedB = minedB.proof
    ∧ _verify_pow_digest s3.chain minedB
        ≠ _to_digest minedB.proof genesisB.proof minedB.index (txsData [tx1, tx2]) := by
  refine ⟨mine_eval, by decide!, by decide, by decide!⟩

/-- C4 (counterexample): the claim "after a transaction from sender S has
been admitted, no further transaction from S can be admitted until S's
pending transaction has been removed by mining" is false: with `tx1` from
`A` still pending, `tx2` from the same `A` (same nonce 0) is admitted too,
and the mempool holds two pending transactions from `A`. -/
theorem c4_counterexample :
    add_transaction s0 tx1 = (none, s1)
    ∧ add_transaction s1 tx2 = (none, s2)
    ∧ tx2.from_ = tx1.from_
    ∧ s1.mempool = [tx1]
    ∧ s2.mempool = [tx1, tx2] :=
  ⟨add_tx1_eval, add_tx2_eval, rfl, rfl, rfl⟩

/-- C4 (amended): admission never changes the account tables, so the
admission verdict of any further transaction — in particular one from the
same sender with the same expected nonce — is exactly what it was before:
the mempool can hold several pending transactions per sender. -/
theorem c4_admission_preserves_admissibility (s : BCState) (t u : Transaction)
    (s' : BCState) (h : add_transaction s t = (none, s')) :
    s'.account_balances = s.account_balances
    ∧ s'.account_nonces = s.account_nonces
    ∧ _validate_transaction s' u = _validate_transaction s u := by
  unfold add_transaction at h
  cases hv : _validate_transaction s t with
  | some e => rw [hv] at h; exact absurd h (by simp)
  | none =>
    rw [hv] at h
    simp only [Prod.mk.injEq] at h
    rw [← h.2]
    exact ⟨rfl, rfl, rfl⟩

/-- C4 (witness): the amended statement after admitting `tx1`, for the
follow-up transaction `tx2`. -/
theorem c4_admission_preserves_admissibility_witness :
    s1.account_balances = s0.account_balances
    ∧ s1.account_nonces = s0.account_nonces
    ∧ _validate_transaction s1 tx2 = _validate_transaction s0 tx2 :=
  c4_admission_preserves_admissibility s0 tx1 tx2 s1 add_tx1_eval

/-- C5 (counterexample): the claim "two transactions that differ only in
their nonce have different transaction ids" is false: `tx5` is `tx1` with
only the nonce changed (0 → 7), and `calculate_hash` gives both the same
digest — the hashed json contains only `from`, `to`, `amount`, `gas_price`,
`timestamp`, `public_key`, and omits the nonce. -/
theorem c5_counterexample :
    tx5.nonce ≠ tx1.nonce
    ∧ tx5.from_ = tx1.from_
    ∧ tx5.to_ = tx1.to_
    ∧ tx5.amount = tx1.amount
    ∧ tx5.gas_price = tx1.gas_price
    ∧ tx5.timestamp = tx1.timestamp
    ∧ tx5.signature = tx1.signature
    ∧ tx5.public_key = tx1.public_key
    ∧ tx5.data = tx1.data
    ∧ tx5.calculate_hash = tx1.calculate_hash :=
  ⟨by decide, rfl, rfl, rfl, rfl, rfl, rfl, rfl, rfl, rfl⟩

/-- C5 (amended): `calculate_hash` reads only `from`, `to`, `amount`,
`gas_price`, `timestamp` and `public_key`; any two transactions agreeing on
those six fields — whatever their nonce, data or contract fields — have the
same transaction id. -/
theorem c5_hash_covers_only_six_fields (t u : Transaction)
    (h1 : t.from_ = u.from_) (h2 : t.to_ = u.to_) (h3 : t.amount = u.amount)
    (h4 : t.gas_price = u.gas_price) (h5 : t.timestamp = u.timestamp)
    (h6 : t.public_key = u.public_key) :
    t.calculate_hash = u.calculate_hash := by
  simp [Transaction.calculate_hash, Transaction.hashDump, h1, h2, h3, h4, h5, h6]

/-- C5 (witness): the amended statement at `tx5` and `tx1`. -/
theorem c5_hash_covers_only_six_fields_witness :
    tx5.calculate_hash = tx1.calculate_hash :=
  c5_hash_covers_only_six_fields tx5 tx1 rfl rfl rfl rfl rfl rfl

/-- The first component of `add_transaction` is exactly the validation
verdict. -/
theorem add_transaction_fst (s : BCState) (t : Transaction) :
    (add_transaction s t).1 = _validate_transaction s t := by
  cases hv : _validate_transaction s t <;> simp [add_transaction, hv]

/-- The nonce check succeeds exactly on the expected nonce. -/
theorem check_replay_iff (s : BCState) (t : Transaction) :
    _check_replay_protection s t = true ↔ t.nonce = expected_nonce s t.from_ := by
  unfold _check_replay_protection expected_nonce
  cases mapFind s.account_nonces t.from_ <;> simp

/-- A `uint64_t` never equals its own increment (wrap included). -/
theorem succ_mod_m64_ne (n : Nat) : (n + 1) % M64 ≠ n := by
  unfold M64
  omega

/-- Validation with a passing signature check returns `badNonce` exactly
when the nonce check fails. -/
theorem validate_badNonce_iff (s : BCState) (t : Transaction)
    (hsig : _verify_ecdsa_signature t = true) :
    _validate_transaction s t = some TxError.badNonce
      ↔ t.nonce ≠ expected_nonce s t.from_ := by
  unfold _validate_transaction
  rw [hsig]
  cases hc : _check_replay_protection s t with
  | false =>
    have hn : t.nonce ≠ expected_nonce s t.from_ := by
      intro he
      rw [(check_replay_iff s t).mpr he] at hc
      exact absurd hc (by simp)
    simp [hn]
  | true =>
    have hn : t.nonce = expected_nonce s t.from_ := (check_replay_iff s t).mp hc
    simp only [Bool.true_eq_false, if_false, hn, ne_eq, not_true_eq_false, iff_false]
    split
    · simp
    · split
      · simp
      · split
        · simp
        · split
          · simp
          · split
            · simp
            · simp

/-- C6: `add_transaction` rejects with the nonce/replay error exactly those
transactions whose nonce is not the expected one (0 for a sender with no
recorded nonce, committed nonce + 1 otherwise, as `expected_nonce` states);
every rejection leaves the whole state — mempool, balances, nonces —
untouched; and a transaction whose nonce equals the sender's committed nonce
(a resubmitted, already-applied transaction) is always rejected this way.
The signature check precedes the nonce check in the source (as in the
spec's rule order), so the two nonce statements assume it passes. -/
theorem c6_bad_nonce_rejection (s : BCState) (t : Transaction) :
    (_verify_ecdsa_signature t = true →
      ((add_transaction s t).1 = some TxError.badNonce
        ↔ t.nonce ≠ expected_nonce s t.from_))
    ∧ (∀ e : TxError, (add_transaction s t).1 = some e → (add_transaction s t).2 = s)
    ∧ (_verify_ecdsa_signature t = true →
        mapFind s.account_nonces t.from_ = some t.nonce →
        (add_transaction s t).1 = some TxError.badNonce) := by
  refine ⟨fun hsig => ?_, fun e he => ?_, fun hsig hfind => ?_⟩
  · rw [add_transaction_fst]
    exact validate_badNonce_iff s t hsig
  · rw [add_transaction_fst] at he
    simp [add_transaction, he]
  · rw [add_transaction_fst]
    rw [validate_badNonce_iff s t hsig]
    unfold expected_nonce
    rw [hfind]
    exact (succ_mod_m64_ne t.nonce).symm

/-- C6 (witness): resubmitting the already-applied `tx1` against the
post-mining state `s3` (where `A`'s committed nonce is `tx1`'s nonce) is
rejected with `badNonce`, and the state is unchanged. -/
theorem c6_bad_nonce_rejection_witness :
    _verify_ecdsa_signature tx1 = true
    ∧ mapFind s3.account_nonces tx1.from_ = some tx1.nonce
    ∧ (add_transaction s3 tx1).1 = some TxError.badNonce
    ∧ (add_transaction s3 tx1).2 = s3 := by
  have h := c6_bad_nonce_rejection s3 tx1
  have hrej := h.2.2 sig_eval rfl
  exact ⟨sig_eval, rfl, hrej, h.2.1 TxError.badNonce hrej⟩

/-- C8: applying one transaction debits exactly `amount + gas_price` from
the sender, credits exactly `amount` to the receiver, and credits the gas to
nobody — the sum of all balances drops by exactly `gas_price`.  Stated for a
well-formed (`std::map`-sorted) account table and distinct sender and
receiver, over `_update_balances` applied to the one-transaction list. -/
theorem c8_transfer_semantics (balances : List (String × ℚ))
    (nonces : List (String × Nat)) (t : Transaction)
    (hs : sortedKeys balances) (hft : t.from_ ≠ t.to_) :
    mapGetD (_update_balances [t] balances nonces).1 t.from_ 0
        = mapGetD balances t.from_ 0 - (t.amount + t.gas_price)
    ∧ mapGetD (_update_balances [t] balances nonces).1 t.to_ 0
        = mapGetD balances t.to_ 0 + t.amount
    ∧ totalBalance (_update_balances [t] balances nonces).1
        = totalBalance balances - t.gas_price := by
  have hb1s := sortedKeys_mapSet balances t.from_
    (mapGetD balances t.from_ 0 - (t.amount + t.gas_price)) hs
  refine ⟨?_, ?_, ?_⟩
  · show mapGetD (mapSet (mapSet balances t.from_ _) t.to_ _) t.from_ 0 = _
    rw [mapGetD_mapSet_ne _ _ _ _ _ hft, mapGetD_mapSet_self]
  · show mapGetD (mapSet (mapSet balances t.from_ _) t.to_ _) t.to_ 0 = _
    rw [mapGetD_mapSet_self, mapGetD_mapSet_ne _ _ _ _ _ (Ne.symm hft)]
  · show totalBalance (mapSet (mapSet balances t.from_ _) t.to_ _) = _
    rw [totalBalance_mapSet _ _ _ hb1s, totalBalance_mapSet _ _ _ hs,
      mapGetD_mapSet_ne _ _ _ _ _ (Ne.symm hft)]
    ring

/-- C8 (witness): a sender with balance 1000 sending amount 100 at gas
price 1 ends with balance 899; the receiver gains 100; the total drops by
exactly the gas price 1. -/
theorem c8_transfer_semantics_witness :
    sortedKeys [("X", (1000 : ℚ))]
    ∧ txW.from_ ≠ txW.to_
    ∧ mapGetD (_update_balances [txW] [("X", 1000)] []).1 txW.from_ 0 = 899
    ∧ mapGetD (_update_balances [txW] [("X", 1000)] []).1 txW.to_ 0 = 100
    ∧ totalBalance (_update_balances [txW] [("X", 1000)] []).1 = 999 := by
  have h := c8_transfer_semantics [("X", 1000)] [] txW
    (by simp [sortedKeys]) (by decide)
  refine ⟨by simp [sortedKeys], by decide, ?_, ?_, ?_⟩
  · rw [h.1]; decide!
  · rw [h.2.1]; decide!
  · rw [h.2.2]; decide!

/-- `popN` is `List.drop`. -/
theorem popN_eq_drop {α : Type} (n : Nat) (l : List α) : popN n l = l.drop n := by
  induction n generalizing l with
  | zero => cases l <;> rfl
  | succ m ih => cases l with
    | nil => rfl
    | cons x xs => simpa [popN] using ih xs

/-- C9: admitting a valid transaction evicts exactly the
`MEMPOOL_EVICT_SIZE` (1000) oldest mempool entries — the front of the FIFO —
before inserting, when and only when the mempool holds at least
`MAX_MEMPOOL_SIZE` (10000) entries; from exactly `MAX_MEMPOOL_SIZE` entries
the mempool ends at `MAX_MEMPOOL_SIZE − MEMPOOL_EVICT_SIZE + 1`; below the
bound nothing is evicted. -/
theorem c9_mempool_eviction (s : BCState) (t : Transaction)
    (hv : _validate_transaction s t = none) :
    (add_transaction s t).1 = none
    ∧ (MAX_MEMPOOL_SIZE ≤ s.mempool.length →
        (add_transaction s t).2.mempool
          = s.mempool.drop MEMPOOL_EVICT_SIZE ++ [t])
    ∧ (s.mempool.length < MAX_MEMPOOL_SIZE →
        (add_transaction s t).2.mempool = s.mempool ++ [t])
    ∧ (s.mempool.length = MAX_MEMPOOL_SIZE →
        (add_transaction s t).2.mempool.length
          = MAX_MEMPOOL_SIZE - MEMPOOL_EVICT_SIZE + 1) := by
  refine ⟨by rw [add_transaction_fst]; exact hv, fun hge => ?_, fun hlt => ?_, fun heq => ?_⟩
  · simp [add_transaction, hv, GE.ge.le hge, popN_eq_drop]
  · simp [add_transaction, hv, Nat.not_le.mpr hlt]
  · have hge : MAX_MEMPOOL_SIZE ≤ s.mempool.length := le_of_eq heq.symm
    simp [add_transaction, hv, hge, popN_eq_drop, heq]

/-- C9 (witness): from a mempool of exactly 10000 entries, admitting the
valid `tx9` leaves 10000 − 1000 + 1 = 9001 entries, and what was dropped is
precisely the 1000-entry front of the FIFO. -/
theorem c9_mempool_eviction_witness :
    _validate_transaction c9S tx9 = none
    ∧ c9S.mempool.length = MAX_MEMPOOL_SIZE
    ∧ (add_transaction c9S tx9).2.mempool
        = c9S.mempool.drop MEMPOOL_EVICT_SIZE ++ [tx9]
    ∧ (add_transaction c9S tx9).2.mempool.length
        = MAX_MEMPOOL_SIZE - MEMPOOL_EVICT_SIZE + 1 := by
  have hlen : c9S.mempool.length = MAX_MEMPOOL_SIZE := by
    simp [c9S]
  have h := c9_mempool_eviction c9S tx9 c9_valid_eval
  exact ⟨c9_valid_eval, hlen, h.2.1 (le_of_eq hlen.symm), h.2.2.2 hlen⟩

/-- C10: for an address absent from the account tables, `get_balance`
returns 0.0 and `get_account_nonce` returns 0, and neither query changes the
state (both are `std::map::find` lookups; the returned state is the input
state unchanged). -/
theorem c10_absent_account_queries (s : BCState) (a : String)
    (hb : mapFind s.account_balances a = none)
    (hn : mapFind s.account_nonces a = none) :
    get_balance s a = (0, s) ∧ get_account_nonce s a = (0, s) := by
  constructor
  · simp [get_balance, hb]
  · simp [get_account_nonce, hn]

/-- C10 (witness): the queries at the unknown address `"Z"` on the fresh
chain. -/
theorem c10_absent_account_queries_witness :
    mapFind sInit.account_balances "Z" = none
    ∧ mapFind sInit.account_nonces "Z" = none
    ∧ get_balance sInit "Z" = (0, sInit)
    ∧ get_account_nonce sInit "Z" = (0, sInit) := by
  have h := c10_absent_account_queries sInit "Z" rfl rfl
  exact ⟨rfl, rfl, h.1, h.2⟩

/-- C7: `handle_chain_sync` never adopts an incoming chain.  The handler
only prints "Accepting longer chain" in the longer-chain branch; the local
chain is unchanged in both branches (shown for every state and every
incoming chain, and at a concrete strictly-longer incoming chain, where the
claim demands adoption). -/
theorem c7_chain_sync_does_not_adopt :
    (∀ (s : BCState) (incoming : List Block), handle_chain_sync s incoming = s)
    ∧ handle_chain_sync sInit [genesisB, minedB] = sInit
    ∧ is_chain_longer sInit [genesisB, minedB] = true
    ∧ sInit.chain ≠ [genesisB, minedB] := by
  refine ⟨fun s incoming => ?_, ?_, by decide, by decide⟩
  · unfold handle_chain_sync
    split <;> rfl
  · unfold handle_chain_sync
    split <;> rfl

end Volkskette
